import Mathlib

/-
Shallow embedding of the goresilience library (slok/goresilience) for
verification of its specification claims.

Modelling conventions:
  * Go `float64` values are modelled by exact rationals (ℚ).  The claims
    settled here are order/invariant properties that do not hinge on
    floating-point rounding.
  * Go's float64-to-int conversion truncates toward zero; `qtrunc` models it.
  * A division whose Go result is NaN (0.0/0.0) is modelled by `Option`:
    `none` stands for the undefined value, and every Go comparison with NaN
    is false.  Where Go converts NaN to int (implementation-specific result),
    the outcome is taken as an explicit oracle parameter.
  * `time.Duration` values are nanosecond integers.
  * Errors are values compared by identity; they are modelled by the
    inductive `GoError`, with `Option GoError` for a possibly-nil error
    (`none` = nil).
  * Each runner's `Run` is modelled as a pure function of its inputs and
    explicit state; whether the user function `f` was invoked is tracked as
    a boolean field of the outcome.
-/

namespace Goresilience

/-- Truncation toward zero of a rational number, modelling Go's conversion
from `float64` to an integer type.  (For negative `q`, `-⌊-q⌋` is the
ceiling of `q`, so this rounds toward zero on both sides.) -/
def qtrunc (q : ℚ) : ℤ := if 0 ≤ q then ⌊q⌋ else -⌊-q⌋

/-- The sentinel errors of the library's error taxonomy (package `errors`),
plus `user n` for distinct caller-supplied errors. -/
inductive GoError where
  | contextCanceled
  | circuitOpen
  | failureInjected
  | rejectedExecution
  | timeoutErr
  | user (n : ℕ)
deriving DecidableEq

/-- Result of one `Run` call: the returned error (`none` = nil) and whether
the user function `f` was invoked. -/
structure RunOutcome where
  err : Option GoError
  fInvoked : Bool
deriving DecidableEq

/-- `Command.Run` (src/goresilience.go): executes `f` only when the context
has not been cancelled; on a cancelled context it returns
`ErrContextCanceled` without invoking `f`.  `fres` is the error `f` would
return when invoked. -/
def commandRun (ctxCancelled : Bool) (fres : Option GoError) : RunOutcome :=
  if ctxCancelled then ⟨some .contextCanceled, false⟩ else ⟨fres, true⟩

/-- `RunnerFunc.Run` (src/goresilience.go): same cancellation check before
running the wrapped function, whose outcome is `body`. -/
def runnerFuncRun (ctxCancelled : Bool) (body : RunOutcome) : RunOutcome :=
  if ctxCancelled then ⟨some .contextCanceled, false⟩ else body

/-! ## Chaos failure injector (src/chaos/inject.go) -/

/-- The request/error counters of `failureInjector`. -/
structure InjectorState where
  total : ℕ
  errs : ℕ
deriving DecidableEq

/-- The observed error percentage computed by `failureInjector.Run`:
`int((float64(f.errs) / float64(f.total)) * 100)`, with no guard for
`total = 0`.  When `total = 0` the Go division is `0.0/0.0 = NaN`, modelled
as `none`. -/
def chaosObservedPerc (errs total : ℕ) : Option ℤ :=
  if total = 0 then none
  else some (qtrunc ((errs : ℚ) / (total : ℚ) * 100))

/-- The injection decision `currentErrPerc < f.cfg.Injector.errorPercent`.
When the observed percentage is NaN, Go's conversion of NaN to int is
implementation-specific; the resulting comparison outcome is the oracle
bit `nanCmp`. -/
def chaosInjectDecision (nanCmp : Bool) (perc : Option ℤ) (errorPercent : ℤ) : Bool :=
  match perc with
  | none => nanCmp
  | some v => decide (v < errorPercent)

/-- Outcome of `failureInjector.Run`: returned error, whether `f` ran, and
the updated counters. -/
structure ChaosOutcome where
  err : Option GoError
  fInvoked : Bool
  state : InjectorState
deriving DecidableEq

/-- `failureInjector.Run` (src/chaos/inject.go).  The latency sleep has no
functional effect and is omitted.  The inner runner is the sanitized chain,
terminating in the command runner executing `fres`.  The deferred block
increments `total`, and `errs` when the returned error is non-nil. -/
def failureInjectorRun (nanCmp ctxCancelled : Bool) (errorPercent : ℤ)
    (s : InjectorState) (fres : Option GoError) : ChaosOutcome :=
  let inject := chaosInjectDecision nanCmp (chaosObservedPerc s.errs s.total) errorPercent
  let r : RunOutcome :=
    if inject then ⟨some .failureInjected, false⟩ else commandRun ctxCancelled fres
  ⟨r.err, r.fInvoked, ⟨s.total + 1, if r.err.isSome then s.errs + 1 else s.errs⟩⟩

/-! ## Circuit breaker (src/circuitbreaker/circuitbreaker.go) -/

/-- The three circuit states. -/
inductive CBState where
  | stateOpen
  | stateHalfOpen
  | stateClosed
deriving DecidableEq

/-- The aggregate request/error counts held by the recorder window.
(`bucketWindow.totalRequests`/`errorRate` sum over all buckets; the counts
are always integral.) -/
structure Window where
  total : ℕ
  errs : ℕ
deriving DecidableEq

/-- Circuit breaker configuration (the fields used by the state machine). -/
structure CBConfig where
  errorPercentThresholdToOpen : ℤ
  minimumRequestToOpen : ℤ
  successfulRequiredOnHalfOpen : ℤ
  waitDurationInOpenState : ℤ
deriving DecidableEq

/-- Replace the `ErrorPercentThresholdToOpen` field, leaving the rest. -/
def CBConfig.setErrorPercent (c : CBConfig) (t : ℤ) : CBConfig :=
  ⟨t, c.minimumRequestToOpen, c.successfulRequiredOnHalfOpen, c.waitDurationInOpenState⟩

/-- `bucketWindow.errorRate() >= q` as Go evaluates it: the rate is
`errs/total` as float64, so with `total = 0` it is NaN and the comparison
is false. -/
def windowErrorRateGE (w : Window) (q : ℚ) : Bool :=
  if w.total = 0 then false else decide ((w.errs : ℚ) / (w.total : ℚ) ≥ q)

/-- `bucketWindow.errorRate() <= 0` as Go evaluates it (false on NaN). -/
def windowErrorRateLE0 (w : Window) : Bool :=
  if w.total = 0 then false else decide ((w.errs : ℚ) / (w.total : ℚ) ≤ 0)

/-- Mutable circuit-breaker state: current circuit state and window counts. -/
structure CB where
  st : CBState
  window : Window
deriving DecidableEq

/-- `circuitbreaker.moveState`: change state and reset the recorder only
when the target differs from the current state. -/
def moveState (s : CB) (target : CBState) : CB :=
  if s.st ≠ target then ⟨target, ⟨0, 0⟩⟩ else s

/-- `circuitbreaker.preDecideState`: in open state, move to half-open once
more than `WaitDurationInOpenState` has elapsed since the state started. -/
def preDecideState (cfg : CBConfig) (elapsedInState : ℤ) (s : CB) : CB :=
  match s.st with
  | .stateOpen =>
      if elapsedInState > cfg.waitDurationInOpenState then moveState s .stateHalfOpen else s
  | _ => s

/-- `circuitbreaker.postDecideState`: the count-based transitions made after
the execution, exactly as in the source. -/
def postDecideState (cfg : CBConfig) (s : CB) : CB :=
  match s.st with
  | .stateHalfOpen =>
      if decide ((s.window.total : ℚ) ≥ (cfg.successfulRequiredOnHalfOpen : ℚ)) then
        moveState s (if windowErrorRateLE0 s.window then .stateClosed else .stateOpen)
      else s
  | .stateClosed =>
      if decide ((s.window.total : ℚ) ≥ (cfg.minimumRequestToOpen : ℚ)) &&
         windowErrorRateGE s.window ((cfg.minimumRequestToOpen : ℚ) / 100) then
        moveState s .stateOpen
      else s
  | .stateOpen => s

/-- `circuitbreaker.execute`: reject with `ErrCircuitOpen` in open state,
otherwise delegate to the inner runner (the sanitized chain terminating in
the command runner).  Returns (error, inner runner invoked, `f` invoked). -/
def cbExecute (s : CB) (ctxCancelled : Bool) (fres : Option GoError) :
    Option GoError × Bool × Bool :=
  match s.st with
  | .stateOpen => (some .circuitOpen, false, false)
  | _ =>
      let r := commandRun ctxCancelled fres
      (r.err, true, r.fInvoked)

/-- `recorder.inc`: count the request, and the error when non-nil. -/
def windowInc (w : Window) (err : Option GoError) : Window :=
  ⟨w.total + 1, if err.isSome then w.errs + 1 else w.errs⟩

/-- Result of `circuitbreaker.Run`. -/
structure CBRunOutcome where
  err : Option GoError
  innerInvoked : Bool
  fInvoked : Bool
  state : CB
deriving DecidableEq

/-- `circuitbreaker.Run`: pre-decide, execute, record, post-decide.
`elapsedInState` is `time.Since(c.stateStarted)` at the pre-decision. -/
def cbRun (cfg : CBConfig) (s : CB) (elapsedInState : ℤ) (ctxCancelled : Bool)
    (fres : Option GoError) : CBRunOutcome :=
  let s1 := preDecideState cfg elapsedInState s
  let e := cbExecute s1 ctxCancelled fres
  let s2 : CB := ⟨s1.st, windowInc s1.window e.1⟩
  let s3 := postDecideState cfg s2
  ⟨e.1, e.2.1, e.2.2, s3⟩

/-! ## AIMD adaptive limiter (src/unnamed/part_015, package `limit`) -/

/-- The result kinds measured by a limiter algorithm. -/
inductive LimitResult where
  | success
  | failure
  | ignore
deriving DecidableEq

/-- `AIMDConfig`.  `rttTimeout` is in nanoseconds; `backoffRatio` is a Go
float64 modelled as a rational. -/
structure AIMDConfig where
  minimumLimit : ℤ
  slowStartThreshold : ℤ
  rttTimeout : ℤ
  backoffRatio : ℚ
  limitIncrementInflightFactor : ℤ
deriving DecidableEq

/-- `AIMDConfig.defaults`: the safety defaults applied by `NewAIMD`. -/
def AIMDConfig.defaults (c : AIMDConfig) : AIMDConfig :=
  ⟨if c.minimumLimit = 0 then 10 else c.minimumLimit,
   c.slowStartThreshold,
   if c.rttTimeout = 0 then 2000000000 else c.rttTimeout,
   if c.backoffRatio < 1/2 ∨ c.backoffRatio > 1 then 9/10 else c.backoffRatio,
   if c.limitIncrementInflightFactor = 0 then 1 else c.limitIncrementInflightFactor⟩

/-- The `aimd` limiter: its (already defaulted) configuration and the
current limit, a Go float64 modelled as a rational. -/
structure Aimd where
  cfg : AIMDConfig
  limit : ℚ
deriving DecidableEq

/-- `NewAIMD`: apply the defaults and start with `limit = MinimumLimit`. -/
def NewAIMD (cfg : AIMDConfig) : Aimd :=
  let c := cfg.defaults
  ⟨c, (c.minimumLimit : ℚ)⟩

/-- `aimd.decreaseLimit`: multiply by the backoff ratio, clamping at the
minimum limit; returns the new state and `int(a.limit)`. -/
def Aimd.decreaseLimit (a : Aimd) : Aimd × ℤ :=
  let l := a.limit * a.cfg.backoffRatio
  let l := if l ≤ (a.cfg.minimumLimit : ℚ) then (a.cfg.minimumLimit : ℚ) else l
  (⟨a.cfg, l⟩, qtrunc l)

/-- `aimd.increaseLimit`: add 1 below the slow-start threshold (or when the
threshold is disabled), otherwise add `1/limit`.  (In Go, `1/limit` with
`limit = 0` is `+Inf`; in this rational model it is `0`.  The theorems
below only use this branch with a strictly positive limit, where the two
agree.) -/
def Aimd.increaseLimit (a : Aimd) : Aimd × ℤ :=
  let l :=
    if qtrunc a.limit < a.cfg.slowStartThreshold ∨ a.cfg.slowStartThreshold = 0 then
      a.limit + 1
    else
      a.limit + 1 / a.limit
  (⟨a.cfg, l⟩, qtrunc l)

/-- `aimd.MeasureSample`.  `elapsedSinceStart` is `time.Since(startTime)` in
nanoseconds. -/
def Aimd.MeasureSample (a : Aimd) (elapsedSinceStart : ℤ) (inflights : ℤ)
    (result : LimitResult) : Aimd × ℤ :=
  let currentLimit := qtrunc a.limit
  match result with
  | .success =>
      if elapsedSinceStart > a.cfg.rttTimeout then a.decreaseLimit
      else if inflights > currentLimit * a.cfg.limitIncrementInflightFactor then
        a.increaseLimit
      else (a, currentLimit)
  | .failure => a.decreaseLimit
  | .ignore => (a, currentLimit)

/-- Fold a sequence of `(elapsed, inflights, result)` samples through
`MeasureSample`. -/
def Aimd.runSamples (a : Aimd) : List (ℤ × ℤ × LimitResult) → Aimd
  | [] => a
  | p :: ps => ((a.MeasureSample p.1 p.2.1 p.2.2).1).runSamples ps

/-! ## Retry runner (retry.NewMiddleware) -/

/-- Retry configuration.  `waitBase` is in nanoseconds. -/
structure RetryConfig where
  waitBase : ℤ
  disableBackoff : Bool
  times : ℤ
deriving DecidableEq

/-- `retry.Config.defaults`. -/
def RetryConfig.defaults (c : RetryConfig) : RetryConfig :=
  ⟨if c.waitBase ≤ 0 then 20000000 else c.waitBase,
   c.disableBackoff,
   if c.times ≤ 0 then 3 else c.times⟩

/-- Go's `time.Duration.Round` for a nonnegative duration `d` and positive
multiple `m`: round to the nearest multiple of `m`, halfway away from
zero. -/
def durationRound (d m : ℤ) : ℤ :=
  let r := d % m
  if r * 2 < m then d - r else d - r + m

/-- The sleep performed after failed attempt `i` by the retry runner's
backoff branch: `waitDuration = Duration(float64(waitBase) * Exp2(i))`,
then full jitter `Duration(float64(waitDuration) * random.Float64())`,
then `.Round(time.Millisecond)`.  The jitter draw `r` satisfies
`0 ≤ r < 1` (the range of `rand.Float64`).  With backoff disabled the
sleep is `waitBase` unchanged. -/
def retrySleep (cfg : RetryConfig) (i : ℕ) (r : ℚ) : ℤ :=
  if cfg.disableBackoff then cfg.waitBase
  else
    let w1 : ℤ := qtrunc ((cfg.waitBase : ℚ) * 2 ^ i)
    let w2 : ℤ := qtrunc ((w1 : ℚ) * r)
    durationRound w2 1000000

/-! ## Adaptive LIFO + CoDel executor (src/unnamed/part_020) -/

/-- The two dequeue policies the executor swaps between. -/
inductive DequeuePolicy where
  | fifo
  | lifo
deriving DecidableEq

/-- Configuration of the adaptive LIFO CoDel executor (nanoseconds). -/
structure AdaptiveLIFOCodelConfig where
  codelTargetDelay : ℤ
  codelInterval : ℤ
deriving DecidableEq

/-- `adaptiveLIFOCodel.queueCongested`:
`a.queue.SinceLastEmpty() > a.cfg.CodelInterval`. -/
def queueCongested (cfg : AdaptiveLIFOCodelConfig) (sinceLastEmpty : ℤ) : Bool :=
  decide (sinceLastEmpty > cfg.codelInterval)

/-- Outcome of `adaptiveLIFOCodel.Execute`: the dequeue policy installed,
the admission timeout used, the returned error, and whether the submitted
function ran. -/
structure CodelOutcome where
  policy : DequeuePolicy
  timeout : ℤ
  err : Option GoError
  fExecuted : Bool
deriving DecidableEq

/-- `adaptiveLIFOCodel.Execute`.  `dequeueDelay` is the time until the
queue dequeues the job (`none` when it never does).  When the timeout
fires first, the cancel signal is buffered before the job is later
dequeued, so the job observes it and returns without executing `f`; the
caller gets `ErrRejectedExecution`.  When the job is dequeued first it
executes `f` with result `fres`.  (At an exact tie the Go select is
nondeterministic; the model takes the dequeued branch — the claims only
concern the strict cases.) -/
def codelExecute (cfg : AdaptiveLIFOCodelConfig) (sinceLastEmpty : ℤ)
    (dequeueDelay : Option ℤ) (fres : Option GoError) : CodelOutcome :=
  let congested := queueCongested cfg sinceLastEmpty
  let policy := if congested then DequeuePolicy.lifo else DequeuePolicy.fifo
  let timeout := if congested then cfg.codelTargetDelay else cfg.codelInterval
  match dequeueDelay with
  | some d =>
      if d ≤ timeout then ⟨policy, timeout, fres, true⟩
      else ⟨policy, timeout, some .rejectedExecution, false⟩
  | none => ⟨policy, timeout, some .rejectedExecution, false⟩

/-! ## Circuit-breaker bucket window rotation (src/circuitbreaker/metrics.go) -/

/-- The indexing state of `bucketWindow` relevant to rotation: the slice
length and `nextIndexToReplace`. -/
structure BucketWindowIdx where
  windowLen : ℕ
  nextIndexToReplace : ℕ
deriving DecidableEq

/-- `bucketWindow.reset`: rebuild the window with `windowSize` buckets,
current bucket at index 0, and `nextIndexToReplace = 1`. -/
def bucketWindowReset (windowSize : ℕ) : BucketWindowIdx :=
  ⟨windowSize, 1⟩

/-- One tick of `bucketWindow.windowSlider`: the bucket at
`nextIndexToReplace` is replaced (this is the slice access), then the
index is advanced and wrapped to 0 only after it reaches the length.
Returns the accessed index and the new state. -/
def windowSliderTick (b : BucketWindowIdx) : ℕ × BucketWindowIdx :=
  let accessed := b.nextIndexToReplace
  let next := b.nextIndexToReplace + 1
  let next := if next ≥ b.windowLen then 0 else next
  (accessed, ⟨b.windowLen, next⟩)

/-- `newBucketWindow`: a zero bucket quantity acts as a unique counter
(quantity 1), then `reset` initialises the indices. -/
def newBucketWindowIdx (bucketQuantity : ℕ) : BucketWindowIdx :=
  bucketWindowReset (if bucketQuantity = 0 then 1 else bucketQuantity)

/-- Whether `newBucketWindow` starts the background slider: only when the
bucket duration is nonzero. -/
def newBucketWindowStartsSlider (bucketDuration : ℤ) : Bool :=
  decide (bucketDuration ≠ 0)

/-- The slider state after `n` ticks. -/
def sliderState (b : BucketWindowIdx) : ℕ → BucketWindowIdx
  | 0 => b
  | n + 1 => (windowSliderTick (sliderState b n)).2

/-! ## Concurrency-limit runner (src/unnamed/part_013) -/

/-- `FailureOnRejectedPolicy` (src/concurrencylimit/policy.go): nil is a
success, `ErrRejectedExecution` a failure, anything else is ignored. -/
def FailureOnRejectedPolicy (err : Option GoError) : LimitResult :=
  match err with
  | none => .success
  | some .rejectedExecution => .failure
  | some _ => .ignore

/-- `FailureOnExternalErrorPolicy` (src/concurrencylimit/policy.go). -/
def FailureOnExternalErrorPolicy (err : Option GoError) : LimitResult :=
  match err with
  | none => .success
  | some .rejectedExecution => .ignore
  | some _ => .failure

/-- `NoFailurePolicy` (src/concurrencylimit/policy.go). -/
def NoFailurePolicy (err : Option GoError) : LimitResult :=
  match err with
  | none => .success
  | some _ => .ignore

/-- Outcome of `concurrencylimit.Run` over an abstract limiter state `σ`:
the returned error, the limiter state, the executor's worker quantity, and
whether `MeasureSample` was called. -/
structure CLOutcome (σ : Type) where
  err : Option GoError
  limiter : σ
  workerQuantity : ℤ
  measureSampleCalled : Bool

/-- The measurement tail of `concurrencylimit.Run` (src/unnamed/part_013):
after the executor finishes with error `execErr`, the result policy
classifies it; on `ignore` the error is returned with no `MeasureSample`
call and no `SetWorkerQuantity` call; otherwise the limiter is sampled
(with the queued duration and inflight count) and the worker quantity is
set to the returned limit. -/
def concurrencylimitRun {σ : Type}
    (measureSample : σ → ℤ → ℤ → LimitResult → ℤ × σ)
    (policy : Option GoError → LimitResult)
    (limiter : σ) (workerQuantity : ℤ)
    (queuedDuration inflights : ℤ)
    (execErr : Option GoError) : CLOutcome σ :=
  let result := policy execErr
  if result = .ignore then ⟨execErr, limiter, workerQuantity, false⟩
  else
    let m := measureSample limiter queuedDuration inflights result
    ⟨execErr, m.2, m.1, true⟩

/-! ## Helper lemmas -/

/-- `qtrunc` is the identity on integers. -/
theorem qtrunc_intCast (n : ℤ) : qtrunc (n : ℚ) = n := by
  unfold qtrunc
  split
  · simp
  · rw [← Int.cast_neg, Int.floor_intCast]
    simp

/-- Any state of the slider that starts within bounds stays within bounds,
provided the window has at least one bucket beyond the start index. -/
theorem sliderState_bounds (b : BucketWindowIdx)
    (h : b.nextIndexToReplace < b.windowLen) (n : ℕ) :
    (sliderState b n).windowLen = b.windowLen ∧
    (sliderState b n).nextIndexToReplace < b.windowLen := by
  induction n with
  | zero => exact ⟨rfl, h⟩
  | succ n ih =>
      obtain ⟨hlen, hidx⟩ := ih
      refine ⟨by simpa [sliderState, windowSliderTick] using hlen, ?_⟩
      have hpos : 0 < b.windowLen := Nat.lt_of_le_of_lt (Nat.zero_le _) hidx
      simp only [sliderState, windowSliderTick, hlen]
      split
      · simpa using hpos
      · omega

/-- The closed-state post-decision moves to open exactly when the window
counts pass the source's thresholds (stated for a nonempty window, as the
counts always are right after `recorder.inc`). -/
theorem postDecideState_closed_iff (cfg : CBConfig) (w : Window) (hw : w.total ≠ 0) :
    (postDecideState cfg ⟨CBState.stateClosed, w⟩).st = CBState.stateOpen ↔
      ((w.total : ℚ) ≥ (cfg.minimumRequestToOpen : ℚ) ∧
       (w.errs : ℚ) / (w.total : ℚ) ≥ (cfg.minimumRequestToOpen : ℚ) / 100) := by
  by_cases h1 : (w.total : ℚ) ≥ (cfg.minimumRequestToOpen : ℚ) <;>
    by_cases h2 : (w.errs : ℚ) / (w.total : ℚ) ≥ (cfg.minimumRequestToOpen : ℚ) / 100 <;>
      simp [postDecideState, windowErrorRateGE, moveState, hw, h1, h2]

/-- The AIMD safety defaults put the backoff ratio in `[1/2, 1]`. -/
theorem aimd_defaults_backoffRatio (c : AIMDConfig) :
    (1 : ℚ)/2 ≤ c.defaults.backoffRatio ∧ c.defaults.backoffRatio ≤ 1 := by
  have hr : c.defaults.backoffRatio =
      if c.backoffRatio < 1/2 ∨ c.backoffRatio > 1 then 9/10 else c.backoffRatio := rfl
  rw [hr]
  split
  · constructor <;> norm_num
  · next h =>
      push_neg at h
      exact ⟨h.1, h.2⟩

/-- A nonnegative configured minimum limit is strictly positive after the
defaults (zero is replaced by 10). -/
theorem aimd_defaults_min_pos (c : AIMDConfig) (h : 0 ≤ c.minimumLimit) :
    0 < c.defaults.minimumLimit := by
  have hm : c.defaults.minimumLimit =
      if c.minimumLimit = 0 then 10 else c.minimumLimit := rfl
  rw [hm]
  split <;> omega

/-- `decreaseLimit` never goes below the minimum limit. -/
theorem decreaseLimit_ge_min (a : Aimd) :
    (a.cfg.minimumLimit : ℚ) ≤ a.decreaseLimit.1.limit := by
  simp only [Aimd.decreaseLimit]
  split
  · exact le_refl _
  · next h => exact le_of_lt (not_le.mp h)

/-- `increaseLimit` does not decrease a strictly positive limit. -/
theorem increaseLimit_ge_self (a : Aimd) (h : 0 < a.limit) :
    a.limit ≤ a.increaseLimit.1.limit := by
  simp only [Aimd.increaseLimit]
  split
  · linarith
  · have h1 : 0 ≤ 1 / a.limit := by positivity
    linarith

/-- `MeasureSample` leaves the configuration untouched. -/
theorem measureSample_cfg (a : Aimd) (e i : ℤ) (r : LimitResult) :
    (a.MeasureSample e i r).1.cfg = a.cfg := by
  cases r with
  | success =>
      simp only [Aimd.MeasureSample]
      split
      · rfl
      · split <;> rfl
  | failure => rfl
  | ignore => rfl

/-- One `MeasureSample` preserves `limit ≥ minimumLimit` when the minimum
is strictly positive. -/
theorem measureSample_min_le (a : Aimd) (e i : ℤ) (r : LimitResult)
    (hmin : 0 < a.cfg.minimumLimit) (h : (a.cfg.minimumLimit : ℚ) ≤ a.limit) :
    (a.cfg.minimumLimit : ℚ) ≤ (a.MeasureSample e i r).1.limit := by
  have hpos : 0 < a.limit := lt_of_lt_of_le (by exact_mod_cast hmin) h
  cases r with
  | success =>
      simp only [Aimd.MeasureSample]
      split
      · exact decreaseLimit_ge_min a
      · split
        · exact le_trans h (increaseLimit_ge_self a hpos)
        · exact h
  | failure => exact decreaseLimit_ge_min a
  | ignore => exact h

/-- The invariant `limit ≥ minimumLimit` is preserved by any sequence of
samples (for a strictly positive minimum), and the configuration is
stable. -/
theorem runSamples_min_le (ps : List (ℤ × ℤ × LimitResult)) :
    ∀ a : Aimd, 0 < a.cfg.minimumLimit → (a.cfg.minimumLimit : ℚ) ≤ a.limit →
      (a.runSamples ps).cfg = a.cfg ∧
      (a.cfg.minimumLimit : ℚ) ≤ (a.runSamples ps).limit := by
  induction ps with
  | nil => exact fun a _ h2 => ⟨rfl, h2⟩
  | cons p ps ih =>
      intro a h1 h2
      have hc := measureSample_cfg a p.1 p.2.1 p.2.2
      have h3 := measureSample_min_le a p.1 p.2.1 p.2.2 h1 h2
      have hrec := ih (a.MeasureSample p.1 p.2.1 p.2.2).1 (by rw [hc]; exact h1)
        (by rw [hc]; exact h3)
      rw [hc] at hrec
      refine ⟨?_, ?_⟩
      · show ((a.MeasureSample p.1 p.2.1 p.2.2).1.runSamples ps).cfg = a.cfg
        exact hrec.1
      · show (a.cfg.minimumLimit : ℚ) ≤ ((a.MeasureSample p.1 p.2.1 p.2.2).1.runSamples ps).limit
        exact hrec.2

/-! ## Claim theorems -/

/-- C3: whenever the circuit breaker is in the open state and at most
`WaitDurationInOpenState` has elapsed since the state was entered, `Run`
returns `ErrCircuitOpen` without invoking the inner runner or `f`,
regardless of the counts recorded in the window. -/
theorem circuitbreaker_open_rejects (cfg : CBConfig) (s : CB) (el : ℤ) (cc : Bool)
    (fres : Option GoError) (hst : s.st = CBState.stateOpen)
    (hel : el ≤ cfg.waitDurationInOpenState) :
    (cbRun cfg s el cc fres).err = some GoError.circuitOpen ∧
    (cbRun cfg s el cc fres).innerInvoked = false ∧
    (cbRun cfg s el cc fres).fInvoked = false := by
  obtain ⟨st, w⟩ := s
  cases hst
  simp [cbRun, preDecideState, cbExecute, not_lt.mpr hel]

/-- Witness for C3 at a concrete open-state circuit with recorded counts. -/
theorem circuitbreaker_open_rejects_witness :
    (⟨CBState.stateOpen, 100, 100⟩ : CB).st = CBState.stateOpen ∧
    (0 : ℤ) ≤ (⟨50, 20, 1, 5000000000⟩ : CBConfig).waitDurationInOpenState ∧
    (cbRun ⟨50, 20, 1, 5000000000⟩ ⟨CBState.stateOpen, 100, 100⟩ 0 false none).err =
      some GoError.circuitOpen :=
  ⟨rfl, by decide,
    (circuitbreaker_open_rejects ⟨50, 20, 1, 5000000000⟩ ⟨CBState.stateOpen, 100, 100⟩
      0 false none rfl (by decide)).1⟩

/-- C7: on each `Execute` of the adaptive-LIFO CoDel executor, congestion
(`sinceLastEmpty > CodelInterval`) selects the LIFO dequeue policy with
admission timeout `CodelTargetDelay`, otherwise FIFO with `CodelInterval`;
and a job not dequeued within that timeout yields `ErrRejectedExecution`
without the submitted function executing. -/
theorem codel_regime_and_rejection (cfg : AdaptiveLIFOCodelConfig) (sinceLastEmpty : ℤ)
    (dq : Option ℤ) (fres : Option GoError) :
    (sinceLastEmpty > cfg.codelInterval →
      (codelExecute cfg sinceLastEmpty dq fres).policy = DequeuePolicy.lifo ∧
      (codelExecute cfg sinceLastEmpty dq fres).timeout = cfg.codelTargetDelay) ∧
    (sinceLastEmpty ≤ cfg.codelInterval →
      (codelExecute cfg sinceLastEmpty dq fres).policy = DequeuePolicy.fifo ∧
      (codelExecute cfg sinceLastEmpty dq fres).timeout = cfg.codelInterval) ∧
    (∀ d : ℤ, dq = some d → (codelExecute cfg sinceLastEmpty dq fres).timeout < d →
      (codelExecute cfg sinceLastEmpty dq fres).err = some GoError.rejectedExecution ∧
      (codelExecute cfg sinceLastEmpty dq fres).fExecuted = false) ∧
    (dq = none →
      (codelExecute cfg sinceLastEmpty dq fres).err = some GoError.rejectedExecution ∧
      (codelExecute cfg sinceLastEmpty dq fres).fExecuted = false) := by
  by_cases hc : sinceLastEmpty > cfg.codelInterval
  · have hpol : ∀ o : Option ℤ,
        (codelExecute cfg sinceLastEmpty o fres).policy = DequeuePolicy.lifo ∧
        (codelExecute cfg sinceLastEmpty o fres).timeout = cfg.codelTargetDelay := by
      intro o
      cases o with
      | none => simp [codelExecute, queueCongested, hc]
      | some d =>
          by_cases hd : d ≤ cfg.codelTargetDelay <;>
            simp [codelExecute, queueCongested, hc, hd]
    refine ⟨fun _ => hpol dq, fun h => absurd hc (not_lt.mpr h), ?_, ?_⟩
    · intro d hd ht
      subst hd
      rw [(hpol (some d)).2] at ht
      simp [codelExecute, queueCongested, hc, not_le.mpr ht]
    · intro hd
      subst hd
      simp [codelExecute, queueCongested, hc]
  · have hpol : ∀ o : Option ℤ,
        (codelExecute cfg sinceLastEmpty o fres).policy = DequeuePolicy.fifo ∧
        (codelExecute cfg sinceLastEmpty o fres).timeout = cfg.codelInterval := by
      intro o
      cases o with
      | none => simp [codelExecute, queueCongested, hc]
      | some d =>
          by_cases hd : d ≤ cfg.codelInterval <;>
            simp [codelExecute, queueCongested, hc, hd]
    refine ⟨fun h => absurd h hc, fun _ => hpol dq, ?_, ?_⟩
    · intro d hd ht
      subst hd
      rw [(hpol (some d)).2] at ht
      simp [codelExecute, queueCongested, hc, not_le.mpr ht]
    · intro hd
      subst hd
      simp [codelExecute, queueCongested, hc]

/-- Witness for C7: congested queue (150ms since last empty against the
100ms default interval) and a job dequeued only after 7ms against the 5ms
target delay. -/
theorem codel_regime_and_rejection_witness :
    (150000000 : ℤ) > (⟨5000000, 100000000⟩ : AdaptiveLIFOCodelConfig).codelInterval ∧
    (codelExecute ⟨5000000, 100000000⟩ 150000000 (some 7000000) none).policy =
      DequeuePolicy.lifo ∧
    (codelExecute ⟨5000000, 100000000⟩ 150000000 (some 7000000) none).timeout = 5000000 ∧
    (codelExecute ⟨5000000, 100000000⟩ 150000000 (some 7000000) none).err =
      some GoError.rejectedExecution ∧
    (codelExecute ⟨5000000, 100000000⟩ 150000000 (some 7000000) none).fExecuted = false := by
  have h := codel_regime_and_rejection ⟨5000000, 100000000⟩ 150000000 (some 7000000) none
  have h1 := h.1 (by decide)
  have h2 := h.2.2.1 7000000 rfl (by rw [h1.2]; decide)
  exact ⟨by decide, h1.1, h1.2, h2.1, h2.2⟩

/-- C8: in the concurrency-limiter runner, when the result policy
classifies the execution outcome as `ignore`, `MeasureSample` is not
called, the limiter state and the worker quantity stay as they were, and
the execution error is returned unchanged. -/
theorem concurrencylimit_ignore_frame {σ : Type}
    (measureSample : σ → ℤ → ℤ → LimitResult → ℤ × σ)
    (policy : Option GoError → LimitResult) (l : σ) (wq qd infl : ℤ)
    (err : Option GoError) (h : policy err = LimitResult.ignore) :
    concurrencylimitRun measureSample policy l wq qd infl err =
      ⟨err, l, wq, false⟩ := by
  simp [concurrencylimitRun, h]

/-- Witness for C8: the default `FailureOnRejectedPolicy` ignores a
non-rejection error; the limiter state and worker quantity are framed. -/
theorem concurrencylimit_ignore_frame_witness :
    FailureOnRejectedPolicy (some (GoError.user 7)) = LimitResult.ignore ∧
    concurrencylimitRun (fun s _ _ _ => (s + 1, s + 1)) FailureOnRejectedPolicy (3 : ℤ) 10 0 0
        (some (GoError.user 7)) = ⟨some (GoError.user 7), 3, 10, false⟩ :=
  ⟨rfl, concurrencylimit_ignore_frame _ _ _ _ _ _ _ rfl⟩

/-- C9: a bucket window created with bucket quantity 1 (and a nonzero
bucket duration, which starts the slider) performs its first rotation tick
at index 1 of the length-1 window — out of bounds, since `reset` always
sets `nextIndexToReplace` to 1 and the wrap-around check runs only after
the replacement.  With bucket quantity ≥ 2 every tick stays in bounds, and
with bucket duration 0 the slider never runs. -/
theorem bucketwindow_rotation_bounds :
    ((windowSliderTick (newBucketWindowIdx 1)).1 = 1 ∧
     (newBucketWindowIdx 1).windowLen = 1 ∧
     ¬ (windowSliderTick (newBucketWindowIdx 1)).1 < (newBucketWindowIdx 1).windowLen) ∧
    newBucketWindowStartsSlider 0 = false ∧
    (∀ q : ℕ, 2 ≤ q → ∀ n : ℕ,
      (windowSliderTick (sliderState (newBucketWindowIdx q) n)).1 <
        (sliderState (newBucketWindowIdx q) n).windowLen) := by
  refine ⟨⟨rfl, rfl, by decide⟩, by decide, fun q hq n => ?_⟩
  have hinit : (newBucketWindowIdx q).nextIndexToReplace < (newBucketWindowIdx q).windowLen := by
    have hq0 : q ≠ 0 := by omega
    simp [newBucketWindowIdx, bucketWindowReset, hq0]
    omega
  obtain ⟨hlen, hidx⟩ := sliderState_bounds (newBucketWindowIdx q) hinit n
  rw [windowSliderTick, hlen]
  exact hidx

/-- Witness for C9's bounded part at bucket quantity 2, third tick. -/
theorem bucketwindow_rotation_bounds_witness :
    (2 : ℕ) ≤ 2 ∧
    (windowSliderTick (sliderState (newBucketWindowIdx 2) 3)).1 <
      (sliderState (newBucketWindowIdx 2) 3).windowLen :=
  ⟨by decide, bucketwindow_rotation_bounds.2.2 2 (by decide) 3⟩

/-- C10: on the first `Run` of the chaos failure injector (counters still
zero) the observed error percentage is the unguarded `errs/total` with
`total = 0`, i.e. a `0/0` division (`none`), not an observed rate of 0;
for every positive `errorPercent` the injection decision therefore follows
the implementation-specific NaN-to-int conversion (it differs between the
two possible oracle outcomes), while a rate of 0 would deterministically
inject. -/
theorem chaos_first_run_unguarded_division (p : ℤ) (hp : 0 < p) :
    chaosObservedPerc 0 0 = none ∧
    chaosInjectDecision true (chaosObservedPerc 0 0) p = true ∧
    chaosInjectDecision false (chaosObservedPerc 0 0) p = false ∧
    chaosInjectDecision true (some 0) p = true ∧
    chaosInjectDecision false (some 0) p = true ∧
    (failureInjectorRun true false p ⟨0, 0⟩ none).err ≠
      (failureInjectorRun false false p ⟨0, 0⟩ none).err := by
  refine ⟨rfl, rfl, rfl, ?_, ?_, ?_⟩
  · simp [chaosInjectDecision, hp]
  · simp [chaosInjectDecision, hp]
  · simp [failureInjectorRun, chaosInjectDecision, chaosObservedPerc, commandRun]

/-- C1: in the closed state, after the execution's outcome is recorded,
the circuit transitions to open exactly when the window's total count is
at least `MinimumRequestToOpen` and its error rate is at least
`MinimumRequestToOpen / 100`; the configured
`ErrorPercentThresholdToOpen` plays no role in the whole `Run`. -/
theorem circuitbreaker_closed_trip (cfg : CBConfig) (s : CB) (el : ℤ) (cc : Bool)
    (fres : Option GoError) (hst : s.st = CBState.stateClosed) :
    ((cbRun cfg s el cc fres).state.st = CBState.stateOpen ↔
      ((s.window.total : ℚ) + 1 ≥ (cfg.minimumRequestToOpen : ℚ) ∧
       ((windowInc s.window (cbRun cfg s el cc fres).err).errs : ℚ) /
           ((s.window.total : ℚ) + 1) ≥ (cfg.minimumRequestToOpen : ℚ) / 100)) ∧
    (∀ t : ℤ, cbRun (cfg.setErrorPercent t) s el cc fres = cbRun cfg s el cc fres) := by
  obtain ⟨st, w⟩ := s
  cases hst
  refine ⟨?_, fun t => rfl⟩
  have herr : (cbRun cfg ⟨CBState.stateClosed, w⟩ el cc fres).err =
      (cbExecute ⟨CBState.stateClosed, w⟩ cc fres).1 := rfl
  have hstate : (cbRun cfg ⟨CBState.stateClosed, w⟩ el cc fres).state =
      postDecideState cfg ⟨CBState.stateClosed,
        windowInc w (cbExecute ⟨CBState.stateClosed, w⟩ cc fres).1⟩ := rfl
  rw [herr, hstate,
    postDecideState_closed_iff cfg (windowInc w (cbExecute ⟨CBState.stateClosed, w⟩ cc fres).1)
      (Nat.succ_ne_zero _)]
  simp only [windowInc]
  push_cast
  exact Iff.rfl

/-- Witness for C1 at a concrete closed-state circuit; the independence
part is instantiated at threshold 99. -/
theorem circuitbreaker_closed_trip_witness :
    (⟨CBState.stateClosed, 9, 9⟩ : CB).st = CBState.stateClosed ∧
    cbRun ((⟨50, 10, 1, 5000000000⟩ : CBConfig).setErrorPercent 99)
        ⟨CBState.stateClosed, 9, 9⟩ 0 false (some (GoError.user 0)) =
      cbRun ⟨50, 10, 1, 5000000000⟩ ⟨CBState.stateClosed, 9, 9⟩ 0 false (some (GoError.user 0)) :=
  ⟨rfl,
    (circuitbreaker_closed_trip ⟨50, 10, 1, 5000000000⟩ ⟨CBState.stateClosed, 9, 9⟩ 0 false
      (some (GoError.user 0)) rfl).2 99⟩

/-- C2 counterexample: the chaos failure injector is a runner of the
library, yet on an already-cancelled context it returns
`ErrFailureInjected` — not the context-cancelled sentinel — whenever its
injection decision fires (here: one recorded success, `errorPercent`
50, so the observed rate 0 is below the target). -/
theorem run_cancelled_counterexample :
    (failureInjectorRun false true 50 ⟨1, 0⟩ none).err = some GoError.failureInjected ∧
    some GoError.failureInjected ≠ some GoError.contextCanceled ∧
    (failureInjectorRun false true 50 ⟨1, 0⟩ none).fInvoked = false := by
  refine ⟨?_, by simp, ?_⟩ <;>
    norm_num [failureInjectorRun, chaosInjectDecision, chaosObservedPerc, qtrunc, commandRun]

/-- C2 amended: on an already-cancelled context no modelled runner invokes
`f`; the base command and RunnerFunc runners return the context-cancelled
sentinel, while a runner that rejects for its own reason returns its own
sentinel instead — the chaos injector returns context-cancelled or
injected-failure, the circuit breaker context-cancelled or circuit-open. -/
theorem run_cancelled_amended (fres : Option GoError) (body : RunOutcome)
    (nanCmp : Bool) (p : ℤ) (is : InjectorState)
    (cfg : CBConfig) (s : CB) (el : ℤ) :
    commandRun true fres = ⟨some GoError.contextCanceled, false⟩ ∧
    runnerFuncRun true body = ⟨some GoError.contextCanceled, false⟩ ∧
    (failureInjectorRun nanCmp true p is fres).fInvoked = false ∧
    ((failureInjectorRun nanCmp true p is fres).err = some GoError.contextCanceled ∨
     (failureInjectorRun nanCmp true p is fres).err = some GoError.failureInjected) ∧
    (cbRun cfg s el true fres).fInvoked = false ∧
    ((cbRun cfg s el true fres).err = some GoError.contextCanceled ∨
     (cbRun cfg s el true fres).err = some GoError.circuitOpen) := by
  have hcb : ∀ s1 : CB,
      (cbExecute s1 true fres).2.2 = false ∧
      ((cbExecute s1 true fres).1 = some GoError.contextCanceled ∨
       (cbExecute s1 true fres).1 = some GoError.circuitOpen) := by
    intro s1
    obtain ⟨st1, w1⟩ := s1
    cases st1 <;> simp [cbExecute, commandRun]
  have hch : (failureInjectorRun nanCmp true p is fres).fInvoked = false ∧
      ((failureInjectorRun nanCmp true p is fres).err = some GoError.contextCanceled ∨
       (failureInjectorRun nanCmp true p is fres).err = some GoError.failureInjected) := by
    by_cases hi : chaosInjectDecision nanCmp (chaosObservedPerc is.errs is.total) p = true <;>
      simp [failureInjectorRun, hi, commandRun]
  exact ⟨rfl, rfl, hch.1, hch.2, (hcb (preDecideState cfg el s)).1,
    (hcb (preDecideState cfg el s)).2⟩

/-- C4 counterexample: the safety clamps do not touch a negative
`MinimumLimit` or `SlowStartThreshold`; from config
`{MinimumLimit = -3, SlowStartThreshold = -5}` (everything else zero) the
limit starts at `-3` and a single successful sample (inflight 0) drops it
to `-3 - 1/3`, strictly below `MinimumLimit`. -/
theorem aimd_limit_ge_min_counterexample :
    (NewAIMD ⟨-3, -5, 0, 0, 0⟩).limit = -3 ∧
    ((NewAIMD ⟨-3, -5, 0, 0, 0⟩).cfg.minimumLimit : ℚ) = -3 ∧
    ((NewAIMD ⟨-3, -5, 0, 0, 0⟩).MeasureSample 0 0 LimitResult.success).1.limit < -3 := by
  norm_num [NewAIMD, AIMDConfig.defaults, Aimd.MeasureSample, Aimd.increaseLimit,
    Aimd.decreaseLimit, qtrunc]

/-- C4 amended: for every configuration with nonnegative `MinimumLimit`,
the limit starts at the (defaulted) `MinimumLimit` and stays at least the
(defaulted) `MinimumLimit` after every `MeasureSample` call, for any
sequence of samples with arbitrary arguments. -/
theorem aimd_limit_ge_min (cfg : AIMDConfig) (hmin : 0 ≤ cfg.minimumLimit)
    (samples : List (ℤ × ℤ × LimitResult)) :
    (NewAIMD cfg).limit = (cfg.defaults.minimumLimit : ℚ) ∧
    (cfg.defaults.minimumLimit : ℚ) ≤ ((NewAIMD cfg).runSamples samples).limit := by
  have h1 : 0 < cfg.defaults.minimumLimit := aimd_defaults_min_pos cfg hmin
  exact ⟨rfl, (runSamples_min_le samples (NewAIMD cfg) h1 (le_refl _)).2⟩

/-- Witness for C4 amended: the zero config (min 10 after defaults) over a
small sample sequence. -/
theorem aimd_limit_ge_min_witness :
    (0 : ℤ) ≤ (⟨0, 0, 0, 0, 0⟩ : AIMDConfig).minimumLimit ∧
    ((⟨0, 0, 0, 0, 0⟩ : AIMDConfig).defaults.minimumLimit : ℚ) ≤
      ((NewAIMD ⟨0, 0, 0, 0, 0⟩).runSamples
        [(0, 20, LimitResult.success), (0, 0, LimitResult.failure),
         (0, 0, LimitResult.ignore)]).limit :=
  ⟨by decide,
    (aimd_limit_ge_min ⟨0, 0, 0, 0, 0⟩ (by decide)
      [(0, 20, LimitResult.success), (0, 0, LimitResult.failure),
       (0, 0, LimitResult.ignore)]).2⟩

/-- C5 counterexample: with the (unclamped) negative config
`MinimumLimit = -10`, the limit starts at `-10` and a failure sample
raises it to `-9`: a failure-result `MeasureSample` produced a limit
strictly greater than the one held before the call. -/
theorem aimd_failure_counterexample :
    (NewAIMD ⟨-10, 0, 0, 0, 0⟩).limit = -10 ∧
    (NewAIMD ⟨-10, 0, 0, 0, 0⟩).limit <
      ((NewAIMD ⟨-10, 0, 0, 0, 0⟩).MeasureSample 0 0 LimitResult.failure).1.limit := by
  norm_num [NewAIMD, AIMDConfig.defaults, Aimd.MeasureSample, Aimd.decreaseLimit, qtrunc]

/-- C5 amended: for any AIMD state whose limit is nonnegative and at least
the minimum limit, with backoff ratio at most 1 (all guaranteed along any
run from a configuration with nonnegative `MinimumLimit`), a failure
sample never increases the limit; an ignore sample changes nothing, for
every elapsed time and inflight value. -/
theorem aimd_failure_ignore (a : Aimd) (e i eI iI : ℤ)
    (hratio : a.cfg.backoffRatio ≤ 1)
    (hmin : (a.cfg.minimumLimit : ℚ) ≤ a.limit) (hpos : 0 ≤ a.limit) :
    (a.MeasureSample e i LimitResult.failure).1.limit ≤ a.limit ∧
    (a.MeasureSample eI iI LimitResult.ignore).1 = a ∧
    (a.MeasureSample eI iI LimitResult.ignore).2 = qtrunc a.limit := by
  refine ⟨?_, rfl, rfl⟩
  show a.decreaseLimit.1.limit ≤ a.limit
  simp only [Aimd.decreaseLimit]
  split
  · exact hmin
  · exact mul_le_of_le_one_right hpos hratio

/-- Witness for C5 amended at the defaulted zero config (limit 10, ratio
9/10). -/
theorem aimd_failure_ignore_witness :
    (NewAIMD ⟨0, 0, 0, 0, 0⟩).cfg.backoffRatio ≤ 1 ∧
    ((NewAIMD ⟨0, 0, 0, 0, 0⟩).cfg.minimumLimit : ℚ) ≤ (NewAIMD ⟨0, 0, 0, 0, 0⟩).limit ∧
    (0 : ℚ) ≤ (NewAIMD ⟨0, 0, 0, 0, 0⟩).limit ∧
    ((NewAIMD ⟨0, 0, 0, 0, 0⟩).MeasureSample 5 3 LimitResult.failure).1.limit ≤
      (NewAIMD ⟨0, 0, 0, 0, 0⟩).limit := by
  have h1 : (NewAIMD ⟨0, 0, 0, 0, 0⟩).cfg.backoffRatio ≤ 1 := by
    norm_num [NewAIMD, AIMDConfig.defaults]
  have h2 : ((NewAIMD ⟨0, 0, 0, 0, 0⟩).cfg.minimumLimit : ℚ) ≤ (NewAIMD ⟨0, 0, 0, 0, 0⟩).limit :=
    le_refl _
  have h3 : (0 : ℚ) ≤ (NewAIMD ⟨0, 0, 0, 0, 0⟩).limit := by
    norm_num [NewAIMD, AIMDConfig.defaults]
  exact ⟨h1, h2, h3, (aimd_failure_ignore _ 5 3 0 0 h1 h2 h3).1⟩

/-- C6 counterexample: with backoff enabled and `waitBase = 600µs` (which
survives the defaults unchanged), a jitter draw of `0.99` makes the first
inter-attempt sleep `round_ms(594µs) = 1ms`, which exceeds `waitBase`. -/
theorem retry_backoff_counterexample :
    (RetryConfig.defaults ⟨600000, false, 3⟩).waitBase = 600000 ∧
    (0 : ℚ) ≤ 99/100 ∧ (99/100 : ℚ) < 1 ∧
    retrySleep (RetryConfig.defaults ⟨600000, false, 3⟩) 0 (99/100) = 1000000 ∧
    (RetryConfig.defaults ⟨600000, false, 3⟩).waitBase <
      retrySleep (RetryConfig.defaults ⟨600000, false, 3⟩) 0 (99/100) := by
  norm_num [RetryConfig.defaults, retrySleep, durationRound, qtrunc]

/-- C6 amended: with backoff disabled every inter-attempt sleep equals
`waitBase`; with backoff enabled the sleep before retry `i` is the
millisecond rounding of a jitter value drawn from `[0, waitBase · 2^i)`,
and whenever `waitBase` is a whole number of milliseconds the rounded
sleep is at most `waitBase · 2^i` — in particular the first sleep
(`i = 0`) never exceeds `waitBase`.  (Without the whole-millisecond
proviso the rounding can push the sleep above the bound, as the
counterexample shows.) -/
theorem retry_backoff_sleep (w t : ℤ) (i : ℕ) (r : ℚ) (h0 : 0 ≤ r) (h1 : r < 1)
    (hw : 0 < w) :
    retrySleep ⟨w, true, t⟩ i r = w ∧
    0 ≤ retrySleep ⟨w, false, t⟩ i r ∧
    0 ≤ qtrunc ((qtrunc ((w : ℚ) * 2 ^ i) : ℚ) * r) ∧
    qtrunc ((qtrunc ((w : ℚ) * 2 ^ i) : ℚ) * r) < w * 2 ^ i ∧
    ((1000000 : ℤ) ∣ w → retrySleep ⟨w, false, t⟩ i r ≤ w * 2 ^ i) := by
  have hWcast : ((w : ℚ) * 2 ^ i) = ((w * 2 ^ i : ℤ) : ℚ) := by push_cast; ring
  have hW1 : qtrunc ((w : ℚ) * 2 ^ i) = w * 2 ^ i := by rw [hWcast, qtrunc_intCast]
  have hWpos : 0 < w * 2 ^ i := by positivity
  have hWQpos : (0 : ℚ) < ((w * 2 ^ i : ℤ) : ℚ) := by exact_mod_cast hWpos
  have hvnn : (0 : ℚ) ≤ ((w * 2 ^ i : ℤ) : ℚ) * r := mul_nonneg (le_of_lt hWQpos) h0
  have hv : qtrunc (((w * 2 ^ i : ℤ) : ℚ) * r) = ⌊((w * 2 ^ i : ℤ) : ℚ) * r⌋ := by
    rw [qtrunc, if_pos hvnn]
  have hv0 : 0 ≤ ⌊((w * 2 ^ i : ℤ) : ℚ) * r⌋ := Int.floor_nonneg.mpr hvnn
  have hvW : ⌊((w * 2 ^ i : ℤ) : ℚ) * r⌋ < w * 2 ^ i := by
    apply Int.floor_lt.mpr
    calc ((w * 2 ^ i : ℤ) : ℚ) * r < ((w * 2 ^ i : ℤ) : ℚ) * 1 :=
          mul_lt_mul_of_pos_left h1 hWQpos
      _ = ((w * 2 ^ i : ℤ) : ℚ) := mul_one _
  have hsleep : retrySleep ⟨w, false, t⟩ i r =
      durationRound ⌊((w * 2 ^ i : ℤ) : ℚ) * r⌋ 1000000 := by
    simp only [retrySleep, Bool.false_eq_true, if_false, hW1, hv]
  have hround : ∀ W v : ℤ, 0 ≤ v → v < W → (1000000 : ℤ) ∣ W →
      durationRound v 1000000 ≤ W := by
    intro W v hva hvb hvc
    simp only [durationRound]
    split <;> omega
  have hroundnn : ∀ v : ℤ, 0 ≤ v → 0 ≤ durationRound v 1000000 := by
    intro v hva
    simp only [durationRound]
    split <;> omega
  refine ⟨rfl, ?_, ?_, ?_, ?_⟩
  · rw [hsleep]
    exact hroundnn _ hv0
  · rw [hW1, hv]
    exact hv0
  · rw [hW1, hv]
    exact hvW
  · intro hdvd
    rw [hsleep]
    exact hround _ _ hv0 hvW (hdvd.mul_right _)

/-- Witness for C6 amended at the default 20ms base, first retry, jitter
one half. -/
theorem retry_backoff_sleep_witness :
    (0 : ℚ) ≤ 1/2 ∧ (1/2 : ℚ) < 1 ∧ (0 : ℤ) < 20000000 ∧
    retrySleep ⟨20000000, true, 3⟩ 0 (1/2) = 20000000 ∧
    ((1000000 : ℤ) ∣ 20000000 →
      retrySleep ⟨20000000, false, 3⟩ 0 (1/2) ≤ 20000000 * 2 ^ 0) :=
  ⟨by norm_num, by norm_num, by decide,
    (retry_backoff_sleep 20000000 3 0 (1/2) (by norm_num) (by norm_num) (by decide)).1,
    (retry_backoff_sleep 20000000 3 0 (1/2) (by norm_num) (by norm_num) (by decide)).2.2.2.2⟩

/-- Witness for C10 at `errorPercent = 50`. -/
theorem chaos_first_run_unguarded_division_witness :
    (0 : ℤ) < 50 ∧ chaosObservedPerc 0 0 = none ∧
    (failureInjectorRun true false 50 ⟨0, 0⟩ none).err ≠
      (failureInjectorRun false false 50 ⟨0, 0⟩ none).err :=
  ⟨by decide, (chaos_first_run_unguarded_division 50 (by decide)).1,
    (chaos_first_run_unguarded_division 50 (by decide)).2.2.2.2.2⟩

end Goresilience
